import Mathlib

set_option maxHeartbeats 1000000

/- Shallow embedding of the uinput library (uinput.go and uinputdefs.go).
   Machine integers are modelled as Nat (unsigned fields) and Int (signed
   fields), with explicit reduction modulo 2^w wherever the Go code converts
   between integer widths. Kernel interactions (file reads, writes, ioctl
   control calls) are modelled by explicit oracles for the kernel's responses,
   and each embedded operation additionally returns the list of interactions
   it performed, in order. -/

-- Constants from uinputdefs.go.
def uinputMaxNameSize : Nat := 80

def evSyn : Nat := 0x00

def evKey : Nat := 0x01

def synReport : Nat := 0

def btnStateReleased : Nat := 0

def btnStatePressed : Nat := 1

-- ff uinput consts from uinputdefs.go.
def evUinput : Nat := 0x0101

def uiFFUpload : Nat := 1

def uiFFErase : Nat := 2

-- syscall.Timeval on linux: two signed 64-bit words.
structure Timeval where
  Sec : Int
  Usec : Int
  deriving DecidableEq, Repr

/-- The 24-byte input event record (struct inputEvent in uinputdefs.go,
translated from input.h). The Go field named Type is called Typ here because
Type is a reserved word in Lean; Typ and Code are uint16 (Nat below 2^16 in
well-formed records), Value is int32. -/
structure inputEvent where
  Time : Timeval
  Typ : Nat
  Code : Nat
  Value : Int
  deriving DecidableEq, Repr

-- Little-endian byte serialization, as performed by binary.Write /
-- binary.Read with binary.LittleEndian in uinput.go. A buffer is a list of
-- byte values.
def natToLE : Nat → Nat → List Nat
  | 0, _ => []
  | k + 1, n => n % 256 :: natToLE k (n / 256)

def natFromLE : List Nat → Nat
  | [] => 0
  | b :: bs => b + 256 * natFromLE bs

-- Two's-complement encoding of a signed k-byte integer.
def intToLE (k : Nat) (i : Int) : List Nat :=
  natToLE k (i % ((256 ^ k : Nat) : Int)).toNat

def intFromLE (k : Nat) (bs : List Nat) : Int :=
  if natFromLE bs < 256 ^ k / 2 then (natFromLE bs : Int)
  else (natFromLE bs : Int) - ((256 ^ k : Nat) : Int)

/-- Embedding of inputEventToBuffer from uinput.go: binary.Write of the
inputEvent struct in little-endian order packs Time.Sec (8 bytes), Time.Usec
(8 bytes), Type (2), Code (2), Value (4), 24 bytes in all. The Go encoder
can only fail on a short write, which cannot happen for this fixed-size
struct, so the embedding is total. -/
def inputEventToBuffer (iev : inputEvent) : List Nat :=
  intToLE 8 iev.Time.Sec ++ (intToLE 8 iev.Time.Usec ++
    (natToLE 2 iev.Typ ++ (natToLE 2 iev.Code ++ intToLE 4 iev.Value)))

/-- Embedding of inputEventFromBuffer from uinput.go: binary.Read of 24
bytes in little-endian order; fails (none) exactly when the buffer is too
short, which is when binary.Read reports an error. -/
def inputEventFromBuffer (buffer : List Nat) : Option inputEvent :=
  if buffer.length < 24 then none
  else
    some
      { Time :=
          { Sec := intFromLE 8 (buffer.take 8),
            Usec := intFromLE 8 ((buffer.drop 8).take 8) },
        Typ := natFromLE ((buffer.drop 16).take 2),
        Code := natFromLE ((buffer.drop 18).take 2),
        Value := intFromLE 4 ((buffer.drop 20).take 4) }

theorem natToLE_length (k n : Nat) : (natToLE k n).length = k := by
  induction k generalizing n with
  | zero => rfl
  | succ k ih => simp [natToLE, ih]

theorem natFromLE_natToLE (k n : Nat) : natFromLE (natToLE k n) = n % 256 ^ k := by
  induction k generalizing n with
  | zero => simp [natToLE, natFromLE]; omega
  | succ k ih =>
      simp only [natToLE, natFromLE, ih]
      rw [pow_succ, mul_comm (256 ^ k) 256, Nat.mod_mul]

theorem pow256_half (k : Nat) (hk : 0 < k) : 256 ^ k / 2 * 2 = 256 ^ k :=
  Nat.div_mul_cancel (dvd_pow (by norm_num) (by omega))

theorem intFromLE_intToLE (k : Nat) (hk : 0 < k) (i : Int)
    (hlo : -((256 ^ k / 2 : Nat) : Int) ≤ i) (hhi : i < ((256 ^ k / 2 : Nat) : Int)) :
    intFromLE k (intToLE k i) = i := by
  have hpos : (0 : Int) < ((256 ^ k : Nat) : Int) := by positivity
  have hmodnn : 0 ≤ i % ((256 ^ k : Nat) : Int) := Int.emod_nonneg i (by omega)
  have htn : ((i % ((256 ^ k : Nat) : Int)).toNat : Int) = i % ((256 ^ k : Nat) : Int) :=
    Int.toNat_of_nonneg hmodnn
  have hhalf : 256 ^ k / 2 * 2 = 256 ^ k := pow256_half k hk
  have hhalfZ : ((256 ^ k / 2 : Nat) : Int) * 2 = ((256 ^ k : Nat) : Int) := by
    exact_mod_cast congrArg (Nat.cast : Nat → Int) hhalf
  have hmlt : (i % ((256 ^ k : Nat) : Int)).toNat < 256 ^ k := by
    have := Int.emod_lt_of_pos i hpos
    omega
  have hrep : (i % ((256 ^ k : Nat) : Int)) = i ∨
      (i % ((256 ^ k : Nat) : Int)) = i + ((256 ^ k : Nat) : Int) := by
    rcases le_or_lt 0 i with hge | hlt
    · left
      exact Int.emod_eq_of_lt hge (by omega)
    · right
      have h1 : (i + ((256 ^ k : Nat) : Int)) % ((256 ^ k : Nat) : Int) =
          i % ((256 ^ k : Nat) : Int) := Int.add_emod_self
      have h2 : (i + ((256 ^ k : Nat) : Int)) % ((256 ^ k : Nat) : Int) =
          i + ((256 ^ k : Nat) : Int) := Int.emod_eq_of_lt (by omega) (by omega)
      omega
  unfold intFromLE intToLE
  rw [natFromLE_natToLE, Nat.mod_eq_of_lt hmlt]
  rcases hrep with h | h
  · rw [if_pos (by omega)]
    omega
  · rw [if_neg (by omega)]
    omega

theorem intToLE_length (k : Nat) (i : Int) : (intToLE k i).length = k := by
  unfold intToLE
  exact natToLE_length _ _

/-- C1: for every 24-byte input event record e whose fields are within their
machine-integer ranges (Sec and Usec are int64, Type and Code uint16, Value
int32), decoding the little-endian buffer produced by encoding e yields a
record equal to e: inputEventFromBuffer (inputEventToBuffer e) = some e. -/
theorem inputEvent_roundtrip (e : inputEvent)
    (hsec1 : -(2 ^ 63) ≤ e.Time.Sec) (hsec2 : e.Time.Sec < 2 ^ 63)
    (husec1 : -(2 ^ 63) ≤ e.Time.Usec) (husec2 : e.Time.Usec < 2 ^ 63)
    (htyp : e.Typ < 2 ^ 16) (hcode : e.Code < 2 ^ 16)
    (hval1 : -(2 ^ 31) ≤ e.Value) (hval2 : e.Value < 2 ^ 31) :
    inputEventFromBuffer (inputEventToBuffer e) = some e := by
  have la : (intToLE 8 e.Time.Sec).length = 8 := intToLE_length 8 _
  have lb : (intToLE 8 e.Time.Usec).length = 8 := intToLE_length 8 _
  have lc : (natToLE 2 e.Typ).length = 2 := natToLE_length 2 _
  have ld : (natToLE 2 e.Code).length = 2 := natToLE_length 2 _
  have lv : (intToLE 4 e.Value).length = 4 := intToLE_length 4 _
  have hlen : (inputEventToBuffer e).length = 24 := by
    simp [inputEventToBuffer, la, lb, lc, ld, lv]
  have t8 : (inputEventToBuffer e).take 8 = intToLE 8 e.Time.Sec := by
    unfold inputEventToBuffer
    exact List.take_left' la
  have d8 : (inputEventToBuffer e).drop 8 =
      intToLE 8 e.Time.Usec ++
        (natToLE 2 e.Typ ++ (natToLE 2 e.Code ++ intToLE 4 e.Value)) := by
    unfold inputEventToBuffer
    exact List.drop_left' la
  have d16 : (inputEventToBuffer e).drop 16 =
      natToLE 2 e.Typ ++ (natToLE 2 e.Code ++ intToLE 4 e.Value) := by
    unfold inputEventToBuffer
    rw [← List.append_assoc]
    exact List.drop_left' (by simp [la, lb])
  have d18 : (inputEventToBuffer e).drop 18 =
      natToLE 2 e.Code ++ intToLE 4 e.Value := by
    unfold inputEventToBuffer
    rw [← List.append_assoc, ← List.append_assoc]
    exact List.drop_left' (by simp [la, lb, lc])
  have d20 : (inputEventToBuffer e).drop 20 = intToLE 4 e.Value := by
    unfold inputEventToBuffer
    rw [← List.append_assoc, ← List.append_assoc, ← List.append_assoc]
    exact List.drop_left' (by simp [la, lb, lc, ld])
  have hb8 : ((256 ^ 8 / 2 : Nat) : Int) = 2 ^ 63 := by norm_num
  have hb4 : ((256 ^ 4 / 2 : Nat) : Int) = 2 ^ 31 := by norm_num
  have h2n : (256 : Nat) ^ 2 = 2 ^ 16 := by norm_num
  unfold inputEventFromBuffer
  rw [if_neg (by omega), t8, d8, List.take_left' lb, d16, List.take_left' lc,
    d18, List.take_left' ld, d20, List.take_of_length_le (le_of_eq lv),
    intFromLE_intToLE 8 (by norm_num) _ (by rw [hb8]; exact hsec1) (by rw [hb8]; exact hsec2),
    intFromLE_intToLE 8 (by norm_num) _ (by rw [hb8]; exact husec1) (by rw [hb8]; exact husec2),
    intFromLE_intToLE 4 (by norm_num) _ (by rw [hb4]; exact hval1) (by rw [hb4]; exact hval2),
    natFromLE_natToLE, natFromLE_natToLE,
    Nat.mod_eq_of_lt (by rw [h2n]; exact htyp),
    Nat.mod_eq_of_lt (by rw [h2n]; exact hcode)]

/-- Witness for C1 at a concrete record. -/
theorem inputEvent_roundtrip_witness :
    inputEventFromBuffer (inputEventToBuffer ⟨⟨5, -3⟩, 257, 1, 7⟩) =
      some ⟨⟨5, -3⟩, 257, 1, 7⟩ :=
  inputEvent_roundtrip ⟨⟨5, -3⟩, 257, 1, 7⟩ (by norm_num) (by norm_num)
    (by norm_num) (by norm_num) (by norm_num) (by norm_num) (by norm_num)
    (by norm_num)

-- Integer width conversions, as performed by the Go conversions uint16(x),
-- uint32(x) and int32(x) in uinput.go.
def toUInt16 (i : Int) : Nat := (i % (2 ^ 16 : Int)).toNat

def toUInt32 (i : Int) : Nat := (i % (2 ^ 32 : Int)).toNat

def wrapInt32 (i : Int) : Int :=
  if i % (2 ^ 32 : Int) < (2 ^ 31 : Int) then i % (2 ^ 32 : Int)
  else i % (2 ^ 32 : Int) - (2 ^ 32 : Int)

theorem toUInt16_lt (i : Int) : toUInt16 i < 2 ^ 16 := by
  unfold toUInt16
  have h1 : 0 ≤ i % (2 ^ 16 : Int) := Int.emod_nonneg i (by norm_num)
  have h2 : i % (2 ^ 16 : Int) < (2 ^ 16 : Int) := Int.emod_lt_of_pos i (by norm_num)
  omega

theorem wrapInt32_lb (i : Int) : -(2 ^ 31) ≤ wrapInt32 i := by
  unfold wrapInt32
  have h1 : 0 ≤ i % (2 ^ 32 : Int) := Int.emod_nonneg i (by norm_num)
  have h2 : i % (2 ^ 32 : Int) < (2 ^ 32 : Int) := Int.emod_lt_of_pos i (by norm_num)
  split <;> omega

theorem wrapInt32_ub (i : Int) : wrapInt32 i < 2 ^ 31 := by
  unfold wrapInt32
  have h1 : 0 ≤ i % (2 ^ 32 : Int) := Int.emod_nonneg i (by norm_num)
  have h2 : i % (2 ^ 32 : Int) < (2 ^ 32 : Int) := Int.emod_lt_of_pos i (by norm_num)
  split <;> omega

/-- The event record built by sendBtnEvent in uinput.go for one key: zero
timestamp, type evKey, code uint16(key), value int32(btnState). -/
def btnInputEvent (key : Int) (btnState : Int) : inputEvent :=
  { Time := ⟨0, 0⟩, Typ := evKey, Code := toUInt16 key, Value := wrapInt32 btnState }

/-- The synchronization record built by syncEvents in uinput.go: zero
timestamp, type evSyn, code synReport, value 0. -/
def syncInputEvent : inputEvent :=
  { Time := ⟨0, 0⟩, Typ := evSyn, Code := synReport, Value := 0 }

/-- Embedding of syncEvents from uinput.go. The write oracle result wres is
none when the device write succeeds and some e when it fails with error e;
the second component lists the buffers actually written. -/
def syncEvents (wres : Option String) : Except String Unit × List (List Nat) :=
  match wres with
  | some e => (.error e, [])
  | none => (.ok (), [inputEventToBuffer syncInputEvent])

/-- Loop body of sendBtnEvent from uinput.go: one write per key, returning
early with a wrapped error on the first failed write. The oracle wr gives
the outcome of the i-th device write. -/
def sendBtnEventLoop (wr : Nat → Option String) (i : Nat) (keys : List Int)
    (btnState : Int) : Except String Unit × List (List Nat) :=
  match keys with
  | [] => (.ok (), [])
  | key :: rest =>
    match wr i with
    | some e =>
        (.error ("writing btnEvent structure to the device file failed: " ++ e), [])
    | none =>
        let out := sendBtnEventLoop wr (i + 1) rest btnState
        (out.1, inputEventToBuffer (btnInputEvent key btnState) :: out.2)

/-- Embedding of sendBtnEvent from uinput.go: write one key event per code,
then (on success of every key write) call syncEvents. -/
def sendBtnEvent (wr : Nat → Option String) (keys : List Int) (btnState : Int) :
    Except String Unit × List (List Nat) :=
  match sendBtnEventLoop wr 0 keys btnState with
  | (.error e, tr) => (.error e, tr)
  | (.ok _, tr) =>
      let s := syncEvents (wr keys.length)
      (s.1, tr ++ s.2)

theorem sendBtnEventLoop_ok (wr : Nat → Option String) (hwr : ∀ i, wr i = none)
    (keys : List Int) (btnState : Int) (i : Nat) :
    sendBtnEventLoop wr i keys btnState =
      (.ok (), keys.map fun key => inputEventToBuffer (btnInputEvent key btnState)) := by
  induction keys generalizing i with
  | nil => rfl
  | cons key rest ih => simp [sendBtnEventLoop, hwr i, ih]

theorem sendBtnEvent_ok (wr : Nat → Option String) (hwr : ∀ i, wr i = none)
    (keys : List Int) (btnState : Int) :
    sendBtnEvent wr keys btnState =
      (.ok (),
        (keys.map fun key => inputEventToBuffer (btnInputEvent key btnState)) ++
          [inputEventToBuffer syncInputEvent]) := by
  unfold sendBtnEvent
  rw [sendBtnEventLoop_ok wr hwr keys btnState 0]
  simp [syncEvents, hwr]

theorem btnInputEvent_decode (key btnState : Int) :
    inputEventFromBuffer (inputEventToBuffer (btnInputEvent key btnState)) =
      some (btnInputEvent key btnState) := by
  have h1 := toUInt16_lt key
  have h2 := wrapInt32_lb btnState
  have h3 := wrapInt32_ub btnState
  norm_num at h1 h2 h3
  apply inputEvent_roundtrip <;> simp [btnInputEvent, evKey] <;> omega

theorem syncInputEvent_decode :
    inputEventFromBuffer (inputEventToBuffer syncInputEvent) = some syncInputEvent := by
  apply inputEvent_roundtrip <;> simp [syncInputEvent, evSyn, synReport]

/-- C3: with a device whose writes all succeed, sendBtnEvent writes one key
event record (type evKey, uint16 of the given code, int32 of the given state)
per code in list order, then unconditionally one synchronization record
(type evSyn, code synReport, value 0); in particular KeyDown(code 1) (that
is, sendBtnEvent with codes [1] and state btnStatePressed) followed by
KeyUp(code 1) produces exactly four serialized records in that order, the
2nd and 4th decoding to sync records with code synReport and value 0. -/
theorem sendBtnEvent_records (wr : Nat → Option String) (keys : List Int)
    (btnState : Int) (hwr : ∀ i, wr i = none) :
    (sendBtnEvent wr keys btnState).1 = .ok () ∧
    (sendBtnEvent wr keys btnState).2 =
      (keys.map fun key => inputEventToBuffer (btnInputEvent key btnState)) ++
        [inputEventToBuffer syncInputEvent] ∧
    ((sendBtnEvent wr keys btnState).2).map inputEventFromBuffer =
      (keys.map fun key => some (btnInputEvent key btnState)) ++
        [some syncInputEvent] ∧
    ((sendBtnEvent wr [1] ((btnStatePressed : Nat) : Int)).2 ++
        (sendBtnEvent wr [1] ((btnStateReleased : Nat) : Int)).2).map
        inputEventFromBuffer =
      [some (btnInputEvent 1 ((btnStatePressed : Nat) : Int)), some syncInputEvent,
        some (btnInputEvent 1 ((btnStateReleased : Nat) : Int)), some syncInputEvent] := by
  refine ⟨by rw [sendBtnEvent_ok wr hwr], by rw [sendBtnEvent_ok wr hwr], ?_, ?_⟩
  · rw [sendBtnEvent_ok wr hwr]
    simp [List.map_map, Function.comp, btnInputEvent_decode, syncInputEvent_decode]
  · rw [sendBtnEvent_ok wr hwr, sendBtnEvent_ok wr hwr]
    simp [btnInputEvent_decode, syncInputEvent_decode]

/-- Witness for C3 at a concrete all-successful device and key list. -/
theorem sendBtnEvent_records_witness :
    (sendBtnEvent (fun _ => none) [2, 3] 1).1 = .ok () :=
  (sendBtnEvent_records (fun _ => none) [2, 3] 1 (fun _ => rfl)).1

-- ff-effect structs from uinputdefs.go (translated from input.h). uint16
-- fields are Nat, int16 fields are Int.
structure FFReplay where
  Length : Nat
  Delay : Nat
  deriving DecidableEq, Repr

structure FFTrigger where
  Button : Nat
  Interval : Nat
  deriving DecidableEq, Repr

structure FFConditionEffect where
  RightSaturation : Nat
  LeftSaturation : Nat
  RightCoeff : Int
  LeftCoeff : Int
  Deadband : Nat
  Center : Int
  deriving DecidableEq, Repr

structure FFRumbleEffect where
  StrongMagnitude : Nat
  WeakMagnitude : Nat
  deriving DecidableEq, Repr

/-- FFEffect from uinputdefs.go: the header (Type, here Typ since Type is
reserved in Lean, then ID, Direction, Trigger, Replay and two padding bytes)
followed by the raw 32-byte union payload u, kept as its list of bytes. -/
structure FFEffect where
  Typ : Nat
  ID : Int
  Direction : Nat
  Trigger : FFTrigger
  Replay : FFReplay
  u : List Nat
  deriving DecidableEq, Repr

-- Reinterpretation of payload bytes as 16-bit fields, as done by the unsafe
-- pointer casts in the accessor methods (native byte order, which is little
-- endian on the platforms the library supports).
def readU16 (bs : List Nat) (off : Nat) : Nat :=
  bs.getD off 0 + 256 * bs.getD (off + 1) 0

def readI16 (bs : List Nat) (off : Nat) : Int :=
  if readU16 bs off < 2 ^ 15 then (readU16 bs off : Int)
  else (readU16 bs off : Int) - 2 ^ 16

/-- Embedding of the Rumble accessor from uinputdefs.go: reinterprets the
payload from offset 0 (record byte 16) as FFRumbleEffect, two uint16. -/
def FFEffect.Rumble (ff : FFEffect) : FFRumbleEffect :=
  { StrongMagnitude := readU16 ff.u 0, WeakMagnitude := readU16 ff.u 2 }

/-- FFConditionEffect reinterpreted from 12 consecutive payload bytes
starting at off, in field order (six 16-bit fields). -/
def conditionAt (bs : List Nat) (off : Nat) : FFConditionEffect :=
  { RightSaturation := readU16 bs off,
    LeftSaturation := readU16 bs (off + 2),
    RightCoeff := readI16 bs (off + 4),
    LeftCoeff := readI16 bs (off + 6),
    Deadband := readU16 bs (off + 8),
    Center := readI16 bs (off + 10) }

/-- Embedding of the Condition accessor from uinputdefs.go: the first block
is reinterpreted from payload offset 0 (record byte 16) and the second from
payload offset 16 (record byte 32). -/
def FFEffect.Condition (ff : FFEffect) : FFConditionEffect × FFConditionEffect :=
  (conditionAt ff.u 0, conditionAt ff.u 16)

-- Two concrete effect records that differ only at payload byte 12 (record
-- byte 28).
def ffCondA : FFEffect := ⟨0, 0, 0, ⟨0, 0⟩, ⟨0, 0⟩, List.replicate 32 0⟩

def ffCondB : FFEffect := ⟨0, 0, 0, ⟨0, 0⟩, ⟨0, 0⟩, (List.replicate 32 0).set 12 255⟩

/-- C6 counterexample: the claim says the condition blocks cover record byte
ranges [16:32) and [32:48); here two records agree everywhere except at
record byte 28 = payload byte 12, a byte inside the claimed range of the
first block, yet the Condition accessor returns identical results, so the
first block does not cover [16:32). -/
theorem condition_coverage_counterexample :
    ffCondA.u.getD 12 0 ≠ ffCondB.u.getD 12 0 ∧
    (∀ i, i < 32 → i ≠ 12 → ffCondA.u.getD i 0 = ffCondB.u.getD i 0) ∧
    FFEffect.Condition ffCondA = FFEffect.Condition ffCondB := by decide

/-- C6 amended: the Condition accessor returns two condition blocks, the
first beginning at record byte offset 16 (payload offset 0) and the second
at record byte offset 32 (payload offset 16); each block is a 12-byte
FFConditionEffect, so the blocks cover record byte ranges [16:28) and
[32:44), and the accessor's result depends only on those bytes. -/
theorem condition_blocks (ff ff' : FFEffect)
    (hlo : ∀ i, i < 12 → ff.u.getD i 0 = ff'.u.getD i 0)
    (hhi : ∀ i, 16 ≤ i → i < 28 → ff.u.getD i 0 = ff'.u.getD i 0) :
    FFEffect.Condition ff = (conditionAt ff.u 0, conditionAt ff.u 16) ∧
    FFEffect.Condition ff = FFEffect.Condition ff' := by
  refine ⟨rfl, ?_⟩
  have e0 := hlo 0 (by omega)
  have e1 := hlo 1 (by omega)
  have e2 := hlo 2 (by omega)
  have e3 := hlo 3 (by omega)
  have e4 := hlo 4 (by omega)
  have e5 := hlo 5 (by omega)
  have e6 := hlo 6 (by omega)
  have e7 := hlo 7 (by omega)
  have e8 := hlo 8 (by omega)
  have e9 := hlo 9 (by omega)
  have e10 := hlo 10 (by omega)
  have e11 := hlo 11 (by omega)
  have f16 := hhi 16 (by omega) (by omega)
  have f17 := hhi 17 (by omega) (by omega)
  have f18 := hhi 18 (by omega) (by omega)
  have f19 := hhi 19 (by omega) (by omega)
  have f20 := hhi 20 (by omega) (by omega)
  have f21 := hhi 21 (by omega) (by omega)
  have f22 := hhi 22 (by omega) (by omega)
  have f23 := hhi 23 (by omega) (by omega)
  have f24 := hhi 24 (by omega) (by omega)
  have f25 := hhi 25 (by omega) (by omega)
  have f26 := hhi 26 (by omega) (by omega)
  have f27 := hhi 27 (by omega) (by omega)
  simp only [List.getD_eq_getElem?_getD] at e0 e1 e2 e3 e4 e5 e6 e7 e8 e9 e10 e11 f16 f17 f18 f19 f20 f21 f22 f23 f24 f25 f26 f27
  simp [FFEffect.Condition, conditionAt, readI16, readU16, e0, e1, e2, e3, e4,
    e5, e6, e7, e8, e9, e10, e11, f16, f17, f18, f19, f20, f21, f22, f23,
    f24, f25, f26, f27]

-- A record agreeing with ffCondA on both condition blocks but not at
-- payload byte 30.
def ffCondC : FFEffect := ⟨0, 0, 0, ⟨0, 0⟩, ⟨0, 0⟩, (List.replicate 32 0).set 30 9⟩

/-- Witness for the amended C6 at concrete records. -/
theorem condition_blocks_witness :
    FFEffect.Condition ffCondA = FFEffect.Condition ffCondC :=
  (condition_blocks ffCondA ffCondC (by decide) (by decide)).2

/-- C7: for every pair of 16-bit values, the Rumble accessor on a record
whose payload bytes [0:4) (record bytes [16:20)) hold the pair little-endian
returns exactly that pair, and the accessor's result depends only on those
four bytes. -/
theorem rumble_accessor (s w : Nat) (hs : s < 2 ^ 16) (hw : w < 2 ^ 16)
    (ff ff' : FFEffect)
    (h0 : ff.u.getD 0 0 = s % 256) (h1 : ff.u.getD 1 0 = s / 256)
    (h2 : ff.u.getD 2 0 = w % 256) (h3 : ff.u.getD 3 0 = w / 256)
    (hagree : ∀ i, i < 4 → ff.u.getD i 0 = ff'.u.getD i 0) :
    ff.Rumble = { StrongMagnitude := s, WeakMagnitude := w } ∧
    ff'.Rumble = ff.Rumble := by
  constructor
  · simp only [FFEffect.Rumble, readU16, h0, h1, h2, h3, FFRumbleEffect.mk.injEq]
    omega
  · have g0 := hagree 0 (by omega)
    have g1 := hagree 1 (by omega)
    have g2 := hagree 2 (by omega)
    have g3 := hagree 3 (by omega)
    simp only [List.getD_eq_getElem?_getD] at g0 g1 g2 g3
    simp [FFEffect.Rumble, readU16, g0, g1, g2, g3]

def ffRumbleExample : FFEffect := ⟨0, 0, 0, ⟨0, 0⟩, ⟨0, 0⟩, [52, 18, 205, 171]⟩

/-- Witness for C7 at the pair (0x1234, 0xABCD). -/
theorem rumble_accessor_witness :
    ffRumbleExample.Rumble = { StrongMagnitude := 4660, WeakMagnitude := 43981 } :=
  (rumble_accessor 4660 43981 (by decide) (by decide) ffRumbleExample
    ffRumbleExample (by decide) (by decide) (by decide) (by decide)
    (fun _ _ => rfl)).1

-- Go struct layout: each field is placed at the current offset aligned up
-- to the field's alignment, and the struct size is the end offset aligned
-- up to the struct's alignment (the maximum field alignment). A field is a
-- (size, alignment) pair.
def alignUp (off a : Nat) : Nat := (off + a - 1) / a * a

def structOffsets : Nat → List (Nat × Nat) → List Nat
  | _, [] => []
  | off, f :: rest => alignUp off f.2 :: structOffsets (alignUp off f.2 + f.1) rest

def structEnd : Nat → List (Nat × Nat) → Nat
  | off, [] => off
  | off, f :: rest => structEnd (alignUp off f.2 + f.1) rest

def maxAlign (fields : List (Nat × Nat)) : Nat :=
  fields.foldr (fun f m => max f.2 m) 1

def structSize (fields : List (Nat × Nat)) : Nat :=
  alignUp (structEnd 0 fields) (maxAlign fields)

def ffTriggerFields : List (Nat × Nat) := [(2, 2), (2, 2)]

def ffReplayFields : List (Nat × Nat) := [(2, 2), (2, 2)]

/-- Field sizes and alignments of FFEffect from uinputdefs.go: Type uint16,
ID int16, Direction uint16, Trigger FFTrigger, Replay FFReplay, one uint16
of explicit padding, and the byte array u of length 32 (alignment 1).
uint16 and int16 have size 2 and alignment 2 on every platform Go supports,
and byte has size and alignment 1, so these pairs do not vary with platform
or compiler. -/
def ffEffectFields : List (Nat × Nat) :=
  [(2, 2), (2, 2), (2, 2),
    (structSize ffTriggerFields, maxAlign ffTriggerFields),
    (structSize ffReplayFields, maxAlign ffReplayFields),
    (2, 2), (32, 1)]

/-- C8: under Go's layout rules the FFEffect record places its header fields
and padding in bytes [0:16) (the header ends exactly at byte 16), the union
payload u at byte offset 16, and the whole record is exactly 48 bytes. -/
theorem ffEffect_layout :
    structOffsets 0 ffEffectFields = [0, 2, 4, 6, 10, 14, 16] ∧
    structEnd 0 (ffEffectFields.take 6) = 16 ∧
    structSize ffEffectFields = 48 := by decide

-- uinput force-feedback structs from uinputdefs.go.
structure UInputFFUpload where
  RequestID : Nat
  ReturnValue : Int
  Effect : FFEffect
  OldEffect : FFEffect
  deriving DecidableEq, Repr

structure UInputFFErase where
  RequestID : Nat
  ReturnValue : Int
  EffectID : Nat
  deriving DecidableEq, Repr

/-- The Go zero value of FFEffect (u is a zeroed 32-byte array). -/
def zeroFFEffect : FFEffect := ⟨0, 0, 0, ⟨0, 0⟩, ⟨0, 0⟩, List.replicate 32 0⟩

/-- The UInputFFUpload value forceFeedbackCallback builds before the begin
ioctl: the Go zero value with RequestID set to uint32(ie.Value). -/
def initUploadReq (v : Int) : UInputFFUpload :=
  { RequestID := toUInt32 v, ReturnValue := 0, Effect := zeroFFEffect,
    OldEffect := zeroFFEffect }

/-- The UInputFFErase value forceFeedbackCallback builds before the begin
ioctl: the Go zero value with RequestID set to uint32(ie.Value). -/
def initEraseReq (v : Int) : UInputFFErase :=
  { RequestID := toUInt32 v, ReturnValue := 0, EffectID := 0 }

/-- Kernel responses to the four force-feedback ioctl control calls. The
begin calls populate the request struct passed by pointer, so a successful
begin yields the populated struct. -/
structure FFKernel where
  beginUpload : UInputFFUpload → Except String UInputFFUpload
  endUpload : UInputFFUpload → Except String Unit
  beginErase : UInputFFErase → Except String UInputFFErase
  endErase : UInputFFErase → Except String Unit

/-- One interaction of forceFeedbackCallback with the kernel or with the
user callback, recorded in order of occurrence. The ioctl entries carry the
request struct passed to the control call. -/
inductive FFCall where
  | readDev : FFCall
  | beginUploadCall : UInputFFUpload → FFCall
  | endUploadCall : UInputFFUpload → FFCall
  | beginEraseCall : UInputFFErase → FFCall
  | endEraseCall : UInputFFErase → FFCall
  | callbackCall : Option UInputFFUpload → Option UInputFFErase → FFCall
  deriving DecidableEq, Repr

/-- Type of the user callback; it is modelled as a pure function of its two
arguments returning the int32 code that the Go code stores into the
request's ReturnValue field. -/
def CBFun : Type := Option UInputFFUpload → Option UInputFFErase → Int

/-- Embedding of readEvent from uinput.go. The oracle readRes is the result
of deviceFile.Read into a fresh 24-byte buffer: an error, or the byte count
together with the buffer contents after the read. A zero count yields no
event and no error; otherwise the buffer is decoded. -/
def readEvent (readRes : Except String (Nat × List Nat)) :
    Except String (Option inputEvent) :=
  match readRes with
  | .error e => .error ("reading input event from device file failed: " ++ e)
  | .ok (n, buf) =>
    if n = 0 then .ok none
    else
      match inputEventFromBuffer buf with
      | none => .error "device file read failed on input event from buffer"
      | some iev => .ok (some iev)

/-- Embedding of forceFeedbackCallback from uinput.go. The callback is
Option-valued to model Go's nil callback. Returns the result of the Go
function together with the ordered trace of device reads, ioctl control
calls and callback invocations it performed. -/
def forceFeedbackCallback (readRes : Except String (Nat × List Nat))
    (k : FFKernel) (callback : Option CBFun) :
    Except String Unit × List FFCall :=
  match readEvent readRes with
  | .error e => (.error e, [.readDev])
  | .ok none => (.ok (), [.readDev])
  | .ok (some ie) =>
    match callback with
    | none => (.error "callback was nil", [.readDev])
    | some cb =>
      if ie.Typ = evUinput then
        if ie.Code = uiFFUpload then
          match k.beginUpload (initUploadReq ie.Value) with
          | .error e =>
              (.error ("begin ff upload ioctl failed: " ++ e),
                [.readDev, .beginUploadCall (initUploadReq ie.Value)])
          | .ok pop =>
            match k.endUpload { pop with ReturnValue := cb (some pop) none } with
            | .error e =>
                (.error ("end ff upload ioctl failed: " ++ e),
                  [.readDev, .beginUploadCall (initUploadReq ie.Value),
                    .callbackCall (some pop) none,
                    .endUploadCall { pop with ReturnValue := cb (some pop) none }])
            | .ok _ =>
                (.ok (),
                  [.readDev, .beginUploadCall (initUploadReq ie.Value),
                    .callbackCall (some pop) none,
                    .endUploadCall { pop with ReturnValue := cb (some pop) none }])
        else if ie.Code = uiFFErase then
          match k.beginErase (initEraseReq ie.Value) with
          | .error e =>
              (.error ("begin ff erase ioctl failed: " ++ e),
                [.readDev, .beginEraseCall (initEraseReq ie.Value)])
          | .ok pop =>
            match k.endErase { pop with ReturnValue := cb none (some pop) } with
            | .error e =>
                (.error ("end ff erase ioctl failed: " ++ e),
                  [.readDev, .beginEraseCall (initEraseReq ie.Value),
                    .callbackCall none (some pop),
                    .endEraseCall { pop with ReturnValue := cb none (some pop) }])
            | .ok _ =>
                (.ok (),
                  [.readDev, .beginEraseCall (initEraseReq ie.Value),
                    .callbackCall none (some pop),
                    .endEraseCall { pop with ReturnValue := cb none (some pop) }])
        else (.ok (), [.readDev])
      else (.ok (), [.readDev])

def isCallbackCall : FFCall → Bool
  | .callbackCall _ _ => true
  | _ => false

/-- Number of callback invocations recorded in a trace. -/
def countCb (tr : List FFCall) : Nat := (tr.filter isCallbackCall).length

/-- The arguments of the callback invocations recorded in a trace. -/
def callbackArgs : List FFCall → List (Option UInputFFUpload × Option UInputFFErase)
  | [] => []
  | .callbackCall up er :: rest => (up, er) :: callbackArgs rest
  | _ :: rest => callbackArgs rest

/-- A kernel whose begin calls return the request unchanged and whose end
calls succeed. -/
def idKernel : FFKernel :=
  { beginUpload := fun r => .ok r, endUpload := fun _ => .ok (),
    beginErase := fun r => .ok r, endErase := fun _ => .ok () }

/-- C9: for every event successfully read by the force-feedback exchange
whose type is not the uinput control type evUinput (0x0101), the exchange
(with a non-nil callback) returns success, performs no further kernel
interaction beyond the read, and never invokes the user callback. -/
theorem ff_ignores_other_event_types (readRes : Except String (Nat × List Nat))
    (k : FFKernel) (cb : CBFun) (ie : inputEvent)
    (hread : readEvent readRes = .ok (some ie)) (htyp : ie.Typ ≠ evUinput) :
    forceFeedbackCallback readRes k (some cb) = (.ok (), [.readDev]) ∧
    countCb (forceFeedbackCallback readRes k (some cb)).2 = 0 := by
  have hmain : forceFeedbackCallback readRes k (some cb) = (.ok (), [.readDev]) := by
    unfold forceFeedbackCallback
    rw [hread]
    simp [htyp]
  exact ⟨hmain, by rw [hmain]; rfl⟩

/-- Witness for C9 with a concrete key event (type evKey). -/
theorem ff_ignores_other_event_types_witness :
    forceFeedbackCallback (.ok (24, inputEventToBuffer ⟨⟨0, 0⟩, 1, 30, 1⟩))
        idKernel (some fun _ _ => 0) = (.ok (), [.readDev]) :=
  (ff_ignores_other_event_types _ idKernel _ ⟨⟨0, 0⟩, 1, 30, 1⟩ (by rfl)
    (by decide)).1

/-- C10: for every event successfully read by the force-feedback exchange
whose type is the uinput control type evUinput but whose code is neither
uiFFUpload (1) nor uiFFErase (2), the exchange with a non-nil callback
returns success, invokes no callback and issues no control call. -/
theorem ff_ignores_unknown_codes (readRes : Except String (Nat × List Nat))
    (k : FFKernel) (cb : CBFun) (ie : inputEvent)
    (hread : readEvent readRes = .ok (some ie)) (htyp : ie.Typ = evUinput)
    (hc1 : ie.Code ≠ uiFFUpload) (hc2 : ie.Code ≠ uiFFErase) :
    forceFeedbackCallback readRes k (some cb) = (.ok (), [.readDev]) ∧
    countCb (forceFeedbackCallback readRes k (some cb)).2 = 0 := by
  have hmain : forceFeedbackCallback readRes k (some cb) = (.ok (), [.readDev]) := by
    unfold forceFeedbackCallback
    rw [hread]
    simp [htyp, hc1, hc2]
  exact ⟨hmain, by rw [hmain]; rfl⟩

/-- Witness for C10 with a concrete control event of code 5. -/
theorem ff_ignores_unknown_codes_witness :
    forceFeedbackCallback (.ok (24, inputEventToBuffer ⟨⟨0, 0⟩, 257, 5, 0⟩))
        idKernel (some fun _ _ => 0) = (.ok (), [.readDev]) :=
  (ff_ignores_unknown_codes _ idKernel _ ⟨⟨0, 0⟩, 257, 5, 0⟩ (by rfl)
    (by decide) (by decide) (by decide)).1

/-- C2: when the force-feedback exchange reads an event of the uinput
control type with code uiFFUpload and the callback is non-nil, it builds an
UploadRequest whose RequestID is uint32 of the event's value, issues the
begin-upload control call on that request, invokes the callback exactly once
with the (kernel-populated) upload request as first argument and none as
second, stores the callback's returned code into the request's ReturnValue
field and issues the end-upload control call on it; a failure of either
control call is surfaced as an error, and the callback is invoked at most
once in every case. -/
theorem ff_upload_exchange (readRes : Except String (Nat × List Nat))
    (k : FFKernel) (cb : CBFun) (ie : inputEvent)
    (hread : readEvent readRes = .ok (some ie))
    (htyp : ie.Typ = evUinput) (hcode : ie.Code = uiFFUpload) :
    countCb (forceFeedbackCallback readRes k (some cb)).2 ≤ 1 ∧
    (initUploadReq ie.Value).RequestID = toUInt32 ie.Value ∧
    (∀ e, k.beginUpload (initUploadReq ie.Value) = .error e →
      forceFeedbackCallback readRes k (some cb) =
        (.error ("begin ff upload ioctl failed: " ++ e),
          [.readDev, .beginUploadCall (initUploadReq ie.Value)]) ∧
      countCb (forceFeedbackCallback readRes k (some cb)).2 = 0) ∧
    (∀ pop, k.beginUpload (initUploadReq ie.Value) = .ok pop →
      callbackArgs (forceFeedbackCallback readRes k (some cb)).2 =
        [(some pop, none)] ∧
      (forceFeedbackCallback readRes k (some cb)).2 =
        [.readDev, .beginUploadCall (initUploadReq ie.Value),
          .callbackCall (some pop) none,
          .endUploadCall { pop with ReturnValue := cb (some pop) none }] ∧
      (k.endUpload { pop with ReturnValue := cb (some pop) none } = .ok () →
        (forceFeedbackCallback readRes k (some cb)).1 = .ok ()) ∧
      (∀ e, k.endUpload { pop with ReturnValue := cb (some pop) none } = .error e →
        (forceFeedbackCallback readRes k (some cb)).1 =
          .error ("end ff upload ioctl failed: " ++ e))) := by
  have step_err : ∀ e, k.beginUpload (initUploadReq ie.Value) = .error e →
      forceFeedbackCallback readRes k (some cb) =
        (.error ("begin ff upload ioctl failed: " ++ e),
          [.readDev, .beginUploadCall (initUploadReq ie.Value)]) := by
    intro e he
    unfold forceFeedbackCallback
    rw [hread]
    simp [htyp, hcode, he]
  have step_ok_err : ∀ pop e, k.beginUpload (initUploadReq ie.Value) = .ok pop →
      k.endUpload { pop with ReturnValue := cb (some pop) none } = .error e →
      forceFeedbackCallback readRes k (some cb) =
        (.error ("end ff upload ioctl failed: " ++ e),
          [.readDev, .beginUploadCall (initUploadReq ie.Value),
            .callbackCall (some pop) none,
            .endUploadCall { pop with ReturnValue := cb (some pop) none }]) := by
    intro pop e hp hend
    unfold forceFeedbackCallback
    rw [hread]
    simp [htyp, hcode, hp, hend]
  have step_ok_ok : ∀ pop, k.beginUpload (initUploadReq ie.Value) = .ok pop →
      k.endUpload { pop with ReturnValue := cb (some pop) none } = .ok () →
      forceFeedbackCallback readRes k (some cb) =
        (.ok (),
          [.readDev, .beginUploadCall (initUploadReq ie.Value),
            .callbackCall (some pop) none,
            .endUploadCall { pop with ReturnValue := cb (some pop) none }]) := by
    intro pop hp hend
    unfold forceFeedbackCallback
    rw [hread]
    simp [htyp, hcode, hp, hend]
  refine ⟨?_, rfl, ?_, ?_⟩
  · rcases hb : k.beginUpload (initUploadReq ie.Value) with e | pop
    · rw [step_err e hb]
      simp [countCb, isCallbackCall]
    · rcases hend : k.endUpload { pop with ReturnValue := cb (some pop) none } with e | u
      · rw [step_ok_err pop e hb hend]
        simp [countCb, isCallbackCall]
      · cases u
        rw [step_ok_ok pop hb hend]
        simp [countCb, isCallbackCall]
  · intro e he
    rw [step_err e he]
    exact ⟨rfl, rfl⟩
  · intro pop hp
    rcases hend : k.endUpload { pop with ReturnValue := cb (some pop) none } with e | u
    · rw [step_ok_err pop e hp hend]
      refine ⟨rfl, rfl, ?_, ?_⟩
      · intro hok
        exact absurd hok (by simp)
      · intro e2 he2
        simp only [Except.error.injEq] at he2
        rw [he2]
    · cases u
      rw [step_ok_ok pop hp hend]
      refine ⟨rfl, rfl, fun _ => rfl, ?_⟩
      intro e2 he2
      exact absurd he2 (by simp)

/-- Witness for C2: a concrete control event of code uiFFUpload and value 7
against the identity kernel drives one callback invocation with the upload
request of RequestID 7 as first argument and none as second. -/
theorem ff_upload_exchange_witness :
    callbackArgs (forceFeedbackCallback
        (.ok (24, inputEventToBuffer ⟨⟨0, 0⟩, 257, 1, 7⟩)) idKernel
        (some fun _ _ => 3)).2 = [(some (initUploadReq 7), none)] :=
  ((ff_upload_exchange _ idKernel _ ⟨⟨0, 0⟩, 257, 1, 7⟩ (by rfl) rfl
    rfl).2.2.2 (initUploadReq 7) rfl).1

/-- C4 counterexample: calling the force-feedback exchange with a nil
callback does not return an InvalidArgument-class error immediately and
kernel interaction is attempted: with a read that returns no bytes, the
call reads the device file and then returns success, not an error. -/
theorem ff_nil_callback_counterexample :
    (forceFeedbackCallback (.ok (0, List.replicate 24 0)) idKernel none).1 =
      .ok () ∧
    FFCall.readDev ∈
      (forceFeedbackCallback (.ok (0, List.replicate 24 0)) idKernel none).2 := by
  refine ⟨rfl, ?_⟩
  show FFCall.readDev ∈ [FFCall.readDev]
  simp

/-- C4 amended: with a nil callback the exchange never issues a control call
and never invokes a callback, but it does attempt the device read first (the
trace is exactly one read); the "callback was nil" error is returned only
when the read yielded an event, a read yielding no event returns success,
and a read error is returned as such. -/
theorem ff_nil_callback (readRes : Except String (Nat × List Nat)) (k : FFKernel) :
    (forceFeedbackCallback readRes k none).2 = [.readDev] ∧
    countCb (forceFeedbackCallback readRes k none).2 = 0 ∧
    (∀ ie, readEvent readRes = .ok (some ie) →
      (forceFeedbackCallback readRes k none).1 = .error "callback was nil") ∧
    (readEvent readRes = .ok none →
      (forceFeedbackCallback readRes k none).1 = .ok ()) ∧
    (∀ e, readEvent readRes = .error e →
      (forceFeedbackCallback readRes k none).1 = .error e) := by
  rcases h : readEvent readRes with e | oie
  · have hmain : forceFeedbackCallback readRes k none = (.error e, [.readDev]) := by
      unfold forceFeedbackCallback
      rw [h]
    refine ⟨by rw [hmain], by rw [hmain]; rfl, ?_, ?_, ?_⟩
    · intro ie hx
      simp at hx
    · intro hx
      simp at hx
    · intro e2 he2
      simp only [Except.error.injEq] at he2
      rw [hmain, ← he2]
  · rcases oie with _ | ie
    · have hmain : forceFeedbackCallback readRes k none = (.ok (), [.readDev]) := by
        unfold forceFeedbackCallback
        rw [h]
      refine ⟨by rw [hmain], by rw [hmain]; rfl, ?_, fun _ => by rw [hmain], ?_⟩
      · intro ie hx
        simp at hx
      · intro e2 he2
        simp at he2
    · have hmain : forceFeedbackCallback readRes k none =
          (.error "callback was nil", [.readDev]) := by
        unfold forceFeedbackCallback
        rw [h]
      refine ⟨by rw [hmain], by rw [hmain]; rfl, fun _ _ => by rw [hmain], ?_, ?_⟩
      · intro hx
        simp at hx
      · intro e2 he2
        simp at he2

/-- Witness for the amended C4: a concrete read yielding a control event
with a nil callback produces the "callback was nil" error. -/
theorem ff_nil_callback_witness :
    (forceFeedbackCallback (.ok (24, inputEventToBuffer ⟨⟨0, 0⟩, 257, 1, 7⟩))
        idKernel none).1 = .error "callback was nil" :=
  (ff_nil_callback (.ok (24, inputEventToBuffer ⟨⟨0, 0⟩, 257, 1, 7⟩))
    idKernel).2.2.1 ⟨⟨0, 0⟩, 257, 1, 7⟩ (by rfl)

/-- One interaction of closeDevice with the kernel or the OS: the
device-destroy ioctl and the file close. -/
inductive CloseCall where
  | ioctlDestroy : CloseCall
  | fileClose : CloseCall
  deriving DecidableEq, Repr

/-- Embedding of releaseDevice from uinput.go: it only issues the
device-destroy ioctl, whose kernel outcome is the oracle destroyRes (none on
success, some e on kernel error e). -/
def releaseDevice (destroyRes : Option String) : Option String := destroyRes

/-- Embedding of closeDevice from uinput.go: it calls releaseDevice and, on
a destroy error, returns the wrapped error immediately; only on destroy
success does it close the file resource and return the close outcome. The
oracles destroyRes and closeRes give the kernel/OS outcomes (none on
success); the first component of the result is the returned error (none on
success), the second the ordered interaction trace. -/
def closeDevice (destroyRes closeRes : Option String) :
    Option String × List CloseCall :=
  match releaseDevice destroyRes with
  | some e => (some ("failed to close device: " ++ e), [.ioctlDestroy])
  | none => (closeRes, [.ioctlDestroy, .fileClose])

/-- C5 counterexample: when the destroy control call fails, closeDevice
returns the wrapped destroy error without ever closing the file resource,
so the file is not closed regardless of the destroy outcome as claimed. -/
theorem closeDevice_counterexample :
    (closeDevice (some "inappropriate ioctl for device") none).1 =
      some "failed to close device: inappropriate ioctl for device" ∧
    CloseCall.fileClose ∉
      (closeDevice (some "inappropriate ioctl for device") none).2 :=
  ⟨rfl, by decide⟩

/-- C5 amended: closeDevice issues the device-destroy control call first and
returns the first error encountered; on destroy success it closes the file
resource and returns the close outcome, but on destroy failure it returns
the wrapped destroy error without closing the file resource. -/
theorem closeDevice_behavior (destroyRes closeRes : Option String) :
    (closeDevice destroyRes closeRes).2.head? = some .ioctlDestroy ∧
    (destroyRes = none →
      closeDevice destroyRes closeRes = (closeRes, [.ioctlDestroy, .fileClose])) ∧
    (∀ e, destroyRes = some e →
      closeDevice destroyRes closeRes =
        (some ("failed to close device: " ++ e), [.ioctlDestroy])) := by
  rcases destroyRes with _ | e
  · exact ⟨rfl, fun _ => rfl, fun e he => by simp at he⟩
  · refine ⟨rfl, fun h => by simp at h, ?_⟩
    intro e2 he2
    simp only [Option.some.injEq] at he2
    rw [he2]
    rfl

/-- Witness for the amended C5 at concrete successful outcomes. -/
theorem closeDevice_behavior_witness :
    closeDevice none none = (none, [.ioctlDestroy, .fileClose]) :=
  (closeDevice_behavior none none).2.1 rfl
